import Mathlib

/-!
Shallow embedding of the catalog-feed subsystem (bot.py, backend/core/views.py,
column_mapper.py, parser.py) and proofs about its specification.

Python strings are modelled as Lean `String`, Python `None`-able values as
`Option`, Python dicts with a fixed key set as structures, and heterogeneous
"value" arguments as small inductive types.  Python string `.strip()` /
`.lower()` are modelled on the ASCII + Cyrillic alphabets actually used by the
program.  Stateful functions take the persisted feed as an argument and return
the persisted feed, and the wall-clock timestamp is passed explicitly.
-/

/-- Python `str.strip()`: drop whitespace from both ends. -/
def pyStrip (s : String) : String :=
  ⟨((s.data.dropWhile Char.isWhitespace).reverse.dropWhile Char.isWhitespace).reverse⟩

/-- Python `str.lower()` restricted to ASCII letters and the Cyrillic block
used by this program's keyword configuration. -/
def pyLowerChar (c : Char) : Char :=
  let n := c.toNat
  if 65 ≤ n ∧ n ≤ 90 then Char.ofNat (n + 32)          -- A-Z
  else if 1040 ≤ n ∧ n ≤ 1071 then Char.ofNat (n + 32)  -- А-Я
  else if n = 1025 then Char.ofNat 1105                 -- Ё → ё
  else c

def pyLowerStr (s : String) : String := ⟨s.data.map pyLowerChar⟩

/-- Does list `p` occur at the head of `l`? -/
def leadsWith (p l : List Char) : Bool :=
  match p, l with
  | [], _ => true
  | _ :: _, [] => false
  | a :: ps, b :: ls => a == b && leadsWith ps ls

/-- Does list `p` occur contiguously anywhere inside `l`? -/
def occursIn (p l : List Char) : Bool :=
  leadsWith p l ||
    match l with
    | [] => false
    | _ :: rest => occursIn p rest

/-- Python `a in b` for strings (`""` is a substring of everything). -/
def pyIn (a b : String) : Bool := occursIn a.data b.data

/-- Python `a or b` for strings (empty string is falsy). -/
def pyOrS (a b : String) : String := if a = "" then b else a

/-- Python `s[:n]`. -/
def strTake (n : Nat) (s : String) : String := ⟨s.data.take n⟩

/-- A heterogeneous Python value fed to `bot._parse_price_to_int`
(`None`, an integer, or arbitrary text; floats with a fractional part are
outside the claims considered here). -/
inductive PVal where
  | pNone : PVal
  | pInt (n : Int) : PVal
  | pStr (s : String) : PVal
deriving DecidableEq

def digitsToNat (l : List Char) : Nat :=
  l.foldl (fun acc c => acc * 10 + (c.toNat - 48)) 0

/-- bot.py `_parse_price_to_int`: `None` → 0; numbers pass through; otherwise
keep only the digits of `str(value)` and parse them, defaulting to 0. -/
def _parse_price_to_int : PVal → Int
  | .pNone => 0
  | .pInt n => n
  | .pStr s =>
    let ds := s.data.filter (fun c => c.isDigit)
    if ds.isEmpty then 0 else (digitsToNat ds : Int)

/-- bot.py `_normalize_category`. -/
def _normalize_category (category : String) : String :=
  if category = "" then "equipment"
  else
    let normalized := pyLowerStr (pyStrip category)
    if normalized ∈ ["car", "passenger", "легковой", "легковой автомобиль"] then "passenger"
    else if normalized ∈ ["spec", "спецтехника"] then "spec"
    else if normalized ∈ ["truck", "грузовой", "грузовой транспорт"] then "truck"
    else if normalized ∈ ["equipment", "оборудование"] then "equipment"
    else "equipment"

/-- bot.py `_category_from_vehicle_type`. -/
def _category_from_vehicle_type (vehicle_type : String) : String :=
  let text := pyLowerStr vehicle_type
  if ["легков", "lcv", "седан", "хэтчбек", "внедорож"].any (fun x => pyIn x text) then "passenger"
  else if ["груз", "тягач", "фургон", "самосвал", "прицеп"].any (fun x => pyIn x text) then "truck"
  else if ["экскават", "бульдозер", "трактор", "каток", "погрузчик", "кран"].any (fun x => pyIn x text) then "spec"
  else "equipment"

/-- The `author` sub-dict of a manual feed item; `id` is the value after the
`int(...)`-conversion in `_can_user_edit_or_delete_ad` (non-convertible → `none`). -/
structure Author where
  id : Option Int
  username : Option String
  first_name : Option String
  last_name : Option String
deriving DecidableEq

/-- One entry of the persisted ads feed (`ads_feed.json` item). -/
structure FeedItem where
  id : String
  source_type : String
  external_id : String
  title : String
  category : String
  price : Int
  year : Option Int
  details : String
  location : String
  image : String
  status : String
  createdAt : String
  updatedAt : Option String := none
  author : Option Author := none
deriving DecidableEq

/-- The persisted ads feed document. -/
structure Feed where
  updated_at : String
  items : List FeedItem
deriving DecidableEq

def USER_ROLE_USER : String := "user"
def USER_ROLE_LEASING_COMPANY : String := "leasing_company"
def USER_ROLE_ADMIN : String := "admin"

/-- bot.py `_can_user_edit_or_delete_ad`: the local feed's permission gate. -/
def _can_user_edit_or_delete_ad (actor_user_id : Int) (actor_role : String)
    (ad_item : FeedItem) : Bool × String :=
  if actor_role = USER_ROLE_ADMIN then (true, "")
  else if actor_role ≠ USER_ROLE_LEASING_COMPANY then
    (false, "Недостаточно прав для изменения объявления.")
  else
    let owner_id : Option Int := ad_item.author.bind Author.id
    if owner_id ≠ some actor_user_id then
      (false, "Лизинговая компания может изменять только свои объявления.")
    else (true, "")

/-- backend/core/models.py `AdItem`, restricted to the fields read by the
permission check (`author_telegram_id` is a nullable integer column). -/
structure AdItemRec where
  ad_id : String
  author_telegram_id : Option Int
deriving DecidableEq

def ROLE_ADMIN : String := "admin"
def ROLE_LEASING_COMPANY : String := "leasing_company"

/-- backend/core/views.py `_can_actor_manage_ad`: the relational mirror's
permission gate. -/
def _can_actor_manage_ad (actor_role : String) (actor_telegram_id : Int)
    (ad_item : AdItemRec) : Bool × String :=
  if actor_role = ROLE_ADMIN then (true, "")
  else if actor_role = ROLE_LEASING_COMPANY then
    if ad_item.author_telegram_id ≠ some actor_telegram_id then
      (false, "leasing_company can modify only own ads")
    else (true, "")
  else (false, "insufficient permissions")

/-- One parsed spreadsheet card as fed to `replace_excel_ads` (string fields
hold `""` for an absent/falsy value, matching Python truthiness use). -/
structure Card where
  code : String
  title : String
  vehicle_type : String
  price : PVal
  year : PVal
  short_desc : String
  comment : String
  location : String
  address : String
  photo_url : String
deriving DecidableEq

/-- The body of the `for card in cards` loop of bot.py `replace_excel_ads`:
cards with a blank title are skipped; the item id is `"excel-" + code`, or a
positional fallback id when the code is blank. -/
def buildExcelItemsAux (now : String) : List Card → List FeedItem → List FeedItem
  | [], acc => acc
  | card :: rest, acc =>
    let code := pyStrip card.code
    let title := pyStrip card.title
    if title = "" then buildExcelItemsAux now rest acc
    else
      buildExcelItemsAux now rest (acc ++
        [{ id := if code ≠ "" then "excel-" ++ code else "excel-" ++ Nat.repr (acc.length + 1),
           source_type := "excel",
           external_id := code,
           title := title,
           category := _category_from_vehicle_type card.vehicle_type,
           price := _parse_price_to_int card.price,
           year := (let y := _parse_price_to_int card.year; if y = 0 then none else some y),
           details := strTake 2000 (pyOrS card.short_desc (pyOrS card.comment "")),
           location := pyOrS card.location (pyOrS card.address "Не указано"),
           image := pyOrS card.photo_url "",
           status := "active",
           createdAt := now,
           updatedAt := none,
           author := none }])

def buildExcelItems (now : String) (cards : List Card) : List FeedItem :=
  buildExcelItemsAux now cards []

/-- bot.py `replace_excel_ads`: keep every non-excel item, rebuild the excel
block from the latest parse, persist with a refreshed timestamp; returns the
new feed and the number of excel items written. -/
def replace_excel_ads (now : String) (cards : List Card) (feed : Feed) : Feed × Nat :=
  let manual_items := feed.items.filter (fun item => item.source_type ≠ "excel")
  let excel_items := buildExcelItems now cards
  ({ updated_at := now, items := manual_items ++ excel_items }, excel_items.length)

/-- A manual ad submission (`ad` dict of `add_manual_ad_to_feed`);
`id := none` models an absent/falsy id. -/
structure Ad where
  id : Option String
  title : String
  category : String
  price : PVal
  year : PVal
  details : String
  location : String
  images : Option (List String)
  createdAt : Option String
deriving DecidableEq

/-- The submitting actor's `user_data` dict. -/
structure UserData where
  id : Int
  username : Option String
  first_name : Option String
  last_name : Option String
deriving DecidableEq

/-- The feed item built by bot.py `add_manual_ad_to_feed` from a submission
(`ts` is `int(datetime.now().timestamp())`). -/
def mkManualFeedItem (now : String) (ts : Int) (ad : Ad) (user_data : UserData) : FeedItem :=
  let ad_id :=
    match ad.id with
    | some s => if s ≠ "" then s else "manual-" ++ toString ts ++ "-" ++ toString user_data.id
    | none => "manual-" ++ toString ts ++ "-" ++ toString user_data.id
  { id := ad_id,
    source_type := "manual",
    external_id := ad_id,
    title := pyStrip ad.title,
    category := _normalize_category ad.category,
    price := _parse_price_to_int ad.price,
    year := (let y := _parse_price_to_int ad.year; if y = 0 then none else some y),
    details := strTake 2000 (pyStrip ad.details),
    location := pyOrS (pyStrip ad.location) "Не указано",
    image := (match ad.images with
              | some l => (if l.isEmpty then [""] else l).headD ""
              | none => ""),
    status := "active",
    createdAt := (match ad.createdAt with | some c => pyOrS c now | none => now),
    updatedAt := none,
    author := some { id := some user_data.id, username := user_data.username,
                     first_name := user_data.first_name, last_name := user_data.last_name } }

/-- bot.py `add_manual_ad_to_feed`: drop any item sharing the id, append the
new item, persist; returns the new feed and the inserted item. -/
def add_manual_ad_to_feed (now : String) (ts : Int) (ad : Ad) (user_data : UserData)
    (feed : Feed) : Feed × FeedItem :=
  let feed_item := mkManualFeedItem now ts ad user_data
  let items := (feed.items.filter (fun item => item.id ≠ feed_item.id)) ++ [feed_item]
  ({ updated_at := now, items := items }, feed_item)

/-- bot.py `_find_feed_item_by_id`: linear scan returning index and item. -/
def findItemAux (ad_id : String) : List FeedItem → Nat → Option (Nat × FeedItem)
  | [], _ => none
  | item :: rest, idx =>
    if item.id = ad_id then some (idx, item) else findItemAux ad_id rest (idx + 1)

def _find_feed_item_by_id (feed : Feed) (ad_id : String) : Option (Nat × FeedItem) :=
  findItemAux ad_id feed.items 0

/-- The update payload (`ad_updates` dict): `none` means the key is absent;
for `title`/`details`/`location`/`status`/`image` a present-but-`None` Python
value behaves as `some ""` (the code coalesces it with `or ""`). -/
structure AdUpdates where
  title : Option String := none
  category : Option String := none
  price : Option PVal := none
  year : Option PVal := none
  details : Option String := none
  location : Option String := none
  status : Option String := none
  images : Option (List String) := none
  image : Option String := none
deriving DecidableEq

/-- The `updates` dict accumulated by `update_manual_ad_in_feed`. -/
structure Updates where
  title : Option String := none
  category : Option String := none
  price : Option Int := none
  year : Option (Option Int) := none
  details : Option String := none
  location : Option String := none
  status : Option String := none
  image : Option String := none
deriving DecidableEq

def Updates.isEmpty (u : Updates) : Bool :=
  u.title = none && u.category = none && u.price = none && u.year = none &&
  u.details = none && u.location = none && u.status = none && u.image = none

/-- The non-title fields of the `updates` dict of `update_manual_ad_in_feed`
(the dict's insertion order is irrelevant to its meaning). -/
def buildUpdatesRest (ad_updates : AdUpdates) : Updates :=
    let upd : Updates := {}
    let upd := match ad_updates.category with
      | some c => { upd with category := some (_normalize_category c) }
      | none => upd
    let upd := match ad_updates.price with
      | some p => { upd with price := some (_parse_price_to_int p) }
      | none => upd
    let upd := match ad_updates.year with
      | some yv => { upd with year := some (let y := _parse_price_to_int yv; if y = 0 then none else some y) }
      | none => upd
    let upd := match ad_updates.details with
      | some d => { upd with details := some (strTake 2000 (pyStrip d)) }
      | none => upd
    let upd := match ad_updates.location with
      | some l => { upd with location := some (pyOrS (pyStrip l) "Не указано") }
      | none => upd
    let upd := match ad_updates.status with
      | some sv =>
        let st := pyLowerStr (pyStrip sv)
        if st ∈ ["active", "inactive", "archived"] then { upd with status := some st } else upd
      | none => upd
    let upd := match ad_updates.images with
      | some (img :: _) => { upd with image := some img }
      | _ =>
        match ad_updates.image with
        | some im => { upd with image := some im }
        | none => upd
    upd

/-- The per-field normalization block of `update_manual_ad_in_feed`;
`none` signals the blank-title early return. -/
def buildUpdates (ad_updates : AdUpdates) : Option Updates :=
  match ad_updates.title with
  | some tv =>
    let t := pyStrip tv
    if t = "" then none
    else some { buildUpdatesRest ad_updates with title := some t }
  | none => some (buildUpdatesRest ad_updates)

/-- `target.update(updates)`: overwrite exactly the fields carried by `upd`. -/
def applyItemUpdates (target : FeedItem) (upd : Updates) : FeedItem :=
  { target with
    title := upd.title.getD target.title,
    category := upd.category.getD target.category,
    price := upd.price.getD target.price,
    year := upd.year.getD target.year,
    details := upd.details.getD target.details,
    location := upd.location.getD target.location,
    status := upd.status.getD target.status,
    image := upd.image.getD target.image }

/-- bot.py `update_manual_ad_in_feed`: locate, gate, normalize the payload,
apply, stamp `updatedAt`, persist; failures return the untouched feed. -/
def update_manual_ad_in_feed (now : String) (ad_id : String) (ad_updates : AdUpdates)
    (actor_user_data : UserData) (actor_role : String) (feed : Feed) :
    Option FeedItem × String × Feed :=
  match _find_feed_item_by_id feed ad_id with
  | none => (none, "Объявление не найдено.", feed)
  | some (index, target) =>
    match _can_user_edit_or_delete_ad actor_user_data.id actor_role target with
    | (false, reason) => (none, reason, feed)
    | (true, _) =>
      match buildUpdates ad_updates with
      | none => (none, "Название объявления не может быть пустым.", feed)
      | some upd =>
        if upd.isEmpty then (none, "Нет данных для обновления.", feed)
        else
          let target' := { applyItemUpdates target upd with updatedAt := some now }
          (some target', "", { updated_at := now, items := feed.items.set index target' })

/-- bot.py `delete_manual_ad_from_feed`: locate, gate, remove, persist;
failures return the untouched feed. -/
def delete_manual_ad_from_feed (now : String) (ad_id : String)
    (actor_user_data : UserData) (actor_role : String) (feed : Feed) :
    Bool × String × Feed :=
  match _find_feed_item_by_id feed ad_id with
  | none => (false, "Объявление не найдено.", feed)
  | some (index, target) =>
    match _can_user_edit_or_delete_ad actor_user_data.id actor_role target with
    | (false, reason) => (false, reason, feed)
    | (true, _) =>
      (true, "", { updated_at := now, items := feed.items.eraseIdx index })

/-- One call to `update_manual_ad_in_feed` (for stating sequence invariants). -/
structure UpdateCall where
  now : String
  ad_id : String
  updates : AdUpdates
  actor : UserData
  role : String

def applyUpdateCalls (calls : List UpdateCall) (feed : Feed) : Feed :=
  calls.foldl
    (fun f c => (update_manual_ad_in_feed c.now c.ad_id c.updates c.actor c.role f).2.2) feed

/-- Every item of the feed has a non-blank title. -/
def titlesNonEmpty (feed : Feed) : Prop := ∀ i ∈ feed.items, i.title ≠ ""

/-- Does the string begin with the characters `excel-` (the id namespace
claimed by the excel import)? -/
def hasExcelMark (s : String) : Bool := leadsWith "excel-".data s.data

/-- A card with every field blank, for building concrete test inputs. -/
def blankCard : Card :=
  { code := "", title := "", vehicle_type := "", price := .pNone, year := .pNone,
    short_desc := "", comment := "", location := "", address := "", photo_url := "" }

/-- A sample manual item used by closed witness statements. -/
def sampleAuthor : Author := { id := some 7, username := some "u", first_name := none, last_name := none }

def sampleItem : FeedItem :=
  { id := "manual-1-7", source_type := "manual", external_id := "manual-1-7",
    title := "Экскаватор", category := "spec", price := 100, year := some 2020,
    details := "", location := "Москва", image := "", status := "active",
    createdAt := "t0", author := some sampleAuthor }

/-- The `primary`/`synonyms` keyword lists of one target field
(column_mapper.py `keywords_dict`). -/
structure KeywordsDict where
  primary : List String
  synonyms : List String
deriving DecidableEq

/-- column_mapper.py `normalize_column_name`: lowercase then strip. -/
def normalize_column_name (name : String) : String := pyStrip (pyLowerStr name)

/-- column_mapper.py `calculate_match_score`.  Tier 5's
`difflib.SequenceMatcher.ratio` similarity is Python-stdlib code external to
this repository, so it is abstracted as the parameter `sim`; the theorems
below hold for every `sim`.  Each Python tier loop assigns one constant
candidate score, so "max over the loop" is written as a conditional. -/
def calculate_match_score (sim : String → String → ℚ) (excel_col : String)
    (keywords_dict : KeywordsDict) : Nat :=
  if keywords_dict.primary.any (fun k => excel_col = normalize_column_name k) then 100
  else
    let b2 := if keywords_dict.primary.any (fun k =>
        pyIn (normalize_column_name k) excel_col || pyIn excel_col (normalize_column_name k))
      then 90 else 0
    let b3 := max b2 (if keywords_dict.synonyms.any
        (fun k => excel_col = normalize_column_name k) then 70 else 0)
    let b4 := max b3 (if keywords_dict.synonyms.any (fun k =>
        pyIn (normalize_column_name k) excel_col || pyIn excel_col (normalize_column_name k))
      then 60 else 0)
    if b4 = 0 then
      (keywords_dict.primary ++ keywords_dict.synonyms).foldl (fun bs k =>
        let s := sim excel_col (normalize_column_name k)
        if (7 : ℚ)/10 < s then max bs (Int.toNat (Int.floor (s * 50))) else bs) 0
    else b4

/-- The inner header scan of `auto_map_columns`: walk the columns, skip the
consumed ones, keep the first column whose score strictly beats the best so
far (`best_match`/`best_score` accumulator, initially `(None, 0)`). -/
def bestLoop (sim : String → String → ℚ) (keywords_dict : KeywordsDict)
    (used : List String) : List String → Option String × Nat → Option String × Nat
  | [], acc => acc
  | excel_col :: rest, acc =>
    if excel_col ∈ used then bestLoop sim keywords_dict used rest acc
    else
      let score := calculate_match_score sim (normalize_column_name excel_col) keywords_dict
      if acc.2 < score then bestLoop sim keywords_dict used rest (some excel_col, score)
      else bestLoop sim keywords_dict used rest acc

/-- The mutable state of `auto_map_columns`' field loop: the `mapping` dict
(header → field, insertion order), the `confidence` dict (field → score) and
the `used_excel_cols` set. -/
structure MapState where
  mapping : List (String × String)
  confidence : List (String × Nat)
  used : List String
deriving DecidableEq

/-- One iteration of the field loop: pick the best free header; assign it only
when it is truthy (non-empty) and its score reaches the 40 threshold
(`if best_match and best_score >= 40`). -/
def mapStep (sim : String → String → ℚ) (excel_columns : List String) (st : MapState)
    (field : String) (field_keywords : KeywordsDict) : MapState :=
  match bestLoop sim field_keywords st.used excel_columns (none, 0) with
  | (some best_match, best_score) =>
    if best_match ≠ "" ∧ 40 ≤ best_score then
      { mapping := st.mapping ++ [(best_match, field)],
        confidence := st.confidence ++ [(field, best_score)],
        used := st.used ++ [best_match] }
    else st
  | (none, _) => st

/-- The field loop of `auto_map_columns`; a field with no keyword spec
(`keywords.get(field, {})` falsy) is skipped. -/
def mapLoop (sim : String → String → ℚ) (excel_columns : List String)
    (keywords : List (String × KeywordsDict)) : List String → MapState → MapState
  | [], st => st
  | field :: rest, st =>
    match keywords.lookup field with
    | none => mapLoop sim excel_columns keywords rest st
    | some field_keywords =>
      mapLoop sim excel_columns keywords rest (mapStep sim excel_columns st field field_keywords)

/-- The result record of column_mapper.py `auto_map_columns`. -/
structure MapResult where
  mapping : List (String × String)
  confidence : List (String × Nat)
  unmatched_excel : List String
  unmatched_target : List String
deriving DecidableEq

/-- column_mapper.py `auto_map_columns`. -/
def auto_map_columns (sim : String → String → ℚ) (excel_columns target_fields : List String)
    (keywords : List (String × KeywordsDict)) : MapResult :=
  let st := mapLoop sim excel_columns keywords target_fields ⟨[], [], []⟩
  { mapping := st.mapping,
    confidence := st.confidence,
    unmatched_excel := excel_columns.filter (fun c => ¬ st.mapping.any (fun kv => kv.1 = c)),
    unmatched_target := target_fields.filter (fun f => ¬ st.confidence.any (fun kv => kv.1 = f)) }

/-- Maximum of a list of naturals (0 on the empty list). -/
def maxOf (l : List Nat) : Nat := l.foldl max 0

/-- The headers not yet consumed by earlier fields. -/
def availableCols (used cols : List String) : List String :=
  cols.filter (fun c => c ∉ used)

/-- The best score any available header reaches for a field's spec. -/
def maxAvailScore (sim : String → String → ℚ) (kw : KeywordsDict)
    (used cols : List String) : Nat :=
  maxOf ((availableCols used cols).map
    (fun c => calculate_match_score sim (normalize_column_name c) kw))

/-- The first available header (in header order) attaining that best score:
the tie-break winner. -/
def firstBestCol (sim : String → String → ℚ) (kw : KeywordsDict)
    (used cols : List String) : Option String :=
  (availableCols used cols).find?
    (fun c => calculate_match_score sim (normalize_column_name c) kw =
      maxAvailScore sim kw used cols)

/-- A trivial similarity function for concrete evaluations (tier 5 unused). -/
def simZero : String → String → ℚ := fun _ _ => 0

/-- A one-keyword spec used in concrete counterexample evaluations. -/
def kwCode : KeywordsDict := { primary := ["код"], synonyms := [] }

/-- A one-keyword spec matching the header `Код предложения` exactly. -/
def kwCodeFull : KeywordsDict := { primary := ["Код предложения"], synonyms := [] }

/-- A heterogeneous value fed to parser.py `format_price` (pandas cell:
missing marker, NaN, number, or text). -/
inductive PyVal where
  | vNone : PyVal
  | vNaN : PyVal
  | vInt (n : Int) : PyVal
  | vStr (s : String) : PyVal
deriving DecidableEq

/-- `pd.isna` on the value kinds above. -/
def pd_isna : PyVal → Bool
  | .vNone => true
  | .vNaN => true
  | _ => false

/-- `int(float(value))` with exceptions mapped to `none`: `float(None)` and
`int(nan)` raise; ints pass through; a string must be a decimal literal
(optional sign, digits, optional fractional part) and truncates toward zero.
Exotic literals Python would also accept (exponents, `inf`, `nan`) are outside
the claims over this function. -/
def pyIntOfFloat : PyVal → Option Int
  | .vNone => none
  | .vNaN => none
  | .vInt n => some n
  | .vStr s =>
    let t := (pyStrip s).data
    let signAndBody : Bool × List Char :=
      match t with
      | '-' :: cs => (true, cs)
      | '+' :: cs => (false, cs)
      | cs => (false, cs)
    let intDigits := signAndBody.2.takeWhile Char.isDigit
    let rest := signAndBody.2.drop intDigits.length
    let ok : Bool :=
      match rest with
      | [] => !intDigits.isEmpty
      | '.' :: frac => (!intDigits.isEmpty || !frac.isEmpty) && frac.all Char.isDigit
      | _ => false
    if ok then
      let m : Int := (digitsToNat intDigits : Int)
      some (if signAndBody.1 then -m else m)
    else none

/-- Regroup a reversed digit string in blocks of three (`f"{v:,}"` seen from
the right), separating blocks with a space (after the `.replace(",", " ")`). -/
def groupRev : List Char → List Char
  | a :: b :: c :: rest =>
    match rest with
    | [] => [a, b, c]
    | _ :: _ => a :: b :: c :: ' ' :: groupRev rest
  | l => l

/-- Python `f"{v:,}".replace(",", " ")` for an integer `v`. -/
def thousandsSep (v : Int) : String :=
  let grouped := String.mk (groupRev (Nat.repr v.natAbs).data.reverse).reverse
  if v < 0 then "-" ++ grouped else grouped

/-- parser.py `format_price`. -/
def format_price (value : PyVal) : String :=
  if pd_isna value || value == PyVal.vNone || value == PyVal.vStr "" then "Цена по запросу"
  else
    match pyIntOfFloat value with
    | some v => thousandsSep v ++ " ₽"
    | none => "Цена по запросу"

/-- A one-item feed used by closed witness statements. -/
def feed0 : Feed := { updated_at := "t0", items := [sampleItem] }

/-- A sample import card with a non-blank code, for closed witness statements. -/
def card10 : Card := { blankCard with code := "10", title := "Кран" }

/-- The feed item `replace_excel_ads` builds from `card10` at time `t1`. -/
def excelSampleItem : FeedItem :=
  { id := "excel-10", source_type := "excel", external_id := "10", title := "Кран",
    category := "equipment", price := 0, year := none, details := "",
    location := "Не указано", image := "", status := "active", createdAt := "t1",
    updatedAt := none, author := none }

/-- Sample manual submissions sharing an id, for closed witness statements. -/
def adA : Ad :=
  { id := some "manual-1-7", title := "Первое", category := "", price := .pNone,
    year := .pNone, details := "", location := "", images := none, createdAt := none }

def adB : Ad := { adA with title := "Второе" }

def userA : UserData := { id := 7, username := none, first_name := none, last_name := none }

/-- C1: the local permission gate allows the admin role on any item; allows
leasing_company exactly when the actor id equals the item's author id
(otherwise the "may modify only own items" reason); and denies every other
role with the "insufficient permissions" reason. -/
theorem can_user_edit_or_delete_ad_spec (uid : Int) (role : String) (item : FeedItem) :
    (role = "admin" → _can_user_edit_or_delete_ad uid role item = (true, "")) ∧
    (role = "leasing_company" →
      (item.author.bind Author.id = some uid →
        _can_user_edit_or_delete_ad uid role item = (true, "")) ∧
      (item.author.bind Author.id ≠ some uid →
        _can_user_edit_or_delete_ad uid role item =
          (false, "Лизинговая компания может изменять только свои объявления."))) ∧
    (role ≠ "admin" → role ≠ "leasing_company" →
      _can_user_edit_or_delete_ad uid role item =
        (false, "Недостаточно прав для изменения объявления.")) := by
  unfold _can_user_edit_or_delete_ad USER_ROLE_ADMIN USER_ROLE_LEASING_COMPANY
  refine ⟨fun h => by simp [h], fun h => ?_, fun h1 h2 => by simp [h1, h2]⟩
  subst h
  constructor
  · intro howner
    simp [howner]
  · intro howner
    simp [howner]

/-- C1 witness: the three branches at concrete inputs. -/
theorem can_user_edit_or_delete_ad_spec_witness :
    _can_user_edit_or_delete_ad 7 "admin" sampleItem = (true, "") ∧
    _can_user_edit_or_delete_ad 7 "leasing_company" sampleItem = (true, "") ∧
    _can_user_edit_or_delete_ad 8 "leasing_company" sampleItem =
      (false, "Лизинговая компания может изменять только свои объявления.") ∧
    _can_user_edit_or_delete_ad 7 "user" sampleItem =
      (false, "Недостаточно прав для изменения объявления.") :=
  ⟨(can_user_edit_or_delete_ad_spec 7 "admin" sampleItem).1 rfl,
   ((can_user_edit_or_delete_ad_spec 7 "leasing_company" sampleItem).2.1 rfl).1 (by decide),
   ((can_user_edit_or_delete_ad_spec 8 "leasing_company" sampleItem).2.1 rfl).2 (by decide),
   (can_user_edit_or_delete_ad_spec 7 "user" sampleItem).2.2 (by decide) (by decide)⟩

/-- C4: the local feed's gate and the relational mirror's gate reach the same
accept/reject decision for every actor id, every role string, and every item,
whenever the mirror row carries the same author id as the feed item
(equal, different, or absent). -/
theorem permission_gates_agree (uid : Int) (role : String) (item : FeedItem)
    (row : AdItemRec) (h : row.author_telegram_id = item.author.bind Author.id) :
    (_can_user_edit_or_delete_ad uid role item).1 = (_can_actor_manage_ad role uid row).1 := by
  unfold _can_user_edit_or_delete_ad _can_actor_manage_ad
  unfold USER_ROLE_ADMIN USER_ROLE_LEASING_COMPANY ROLE_ADMIN ROLE_LEASING_COMPANY
  by_cases hadm : role = "admin"
  · simp [hadm]
  · by_cases hlc : role = "leasing_company"
    · by_cases howner : item.author.bind Author.id = some uid <;>
        simp [hadm, hlc, howner, h]
    · simp [hadm, hlc]

/-- C4 witness: agreement evaluated at a concrete triple. -/
theorem permission_gates_agree_witness :
    (_can_user_edit_or_delete_ad 7 "leasing_company" sampleItem).1 =
      (_can_actor_manage_ad "leasing_company" 7 { ad_id := "manual-1-7", author_telegram_id := some 7 }).1 :=
  permission_gates_agree 7 "leasing_company" sampleItem
    { ad_id := "manual-1-7", author_telegram_id := some 7 } (by decide)

theorem filter_self_again (p : FeedItem → Bool) (l : List FeedItem) :
    (l.filter p).filter p = l.filter p := by
  induction l with
  | nil => rfl
  | cons a t ih => by_cases h : p a <;> simp [List.filter_cons, h, ih]

theorem filter_ne_then_eq (i : String) (l : List FeedItem) :
    (l.filter (fun x => x.id ≠ i)).filter (fun x => x.id = i) = [] := by
  induction l with
  | nil => rfl
  | cons a t ih => by_cases h : a.id = i <;> simp [List.filter_cons, h, ih]

/-- C2: when the permission gate denies the actor for the item found at the
targeted id, both update and delete return a failure carrying the denial
reason and hand back the feed exactly as it was. -/
theorem denied_mutation_no_effect (now ad_id : String) (u : AdUpdates)
    (actor : UserData) (role : String) (feed : Feed) (idx : Nat) (target : FeedItem)
    (r : String)
    (hfind : _find_feed_item_by_id feed ad_id = some (idx, target))
    (hdeny : _can_user_edit_or_delete_ad actor.id role target = (false, r)) :
    update_manual_ad_in_feed now ad_id u actor role feed = (none, r, feed) ∧
    delete_manual_ad_from_feed now ad_id actor role feed = (false, r, feed) := by
  constructor
  · simp only [update_manual_ad_in_feed, hfind, hdeny]
  · simp only [delete_manual_ad_from_feed, hfind, hdeny]

/-- C2 witness: a role-`user` actor is rejected with the "insufficient
permissions" reason and the feed is untouched. -/
theorem denied_mutation_no_effect_witness :
    update_manual_ad_in_feed "t1" "manual-1-7" {} { id := 9, username := none, first_name := none, last_name := none } "user" feed0 =
      (none, "Недостаточно прав для изменения объявления.", feed0) ∧
    delete_manual_ad_from_feed "t1" "manual-1-7" { id := 9, username := none, first_name := none, last_name := none } "user" feed0 =
      (false, "Недостаточно прав для изменения объявления.", feed0) :=
  denied_mutation_no_effect "t1" "manual-1-7" {}
    { id := 9, username := none, first_name := none, last_name := none } "user" feed0 0 sampleItem
    "Недостаточно прав для изменения объявления." (by decide) (by decide)

theorem mkManualFeedItem_id (now : String) (ts : Int) (ad : Ad) (u : UserData)
    (i : String) (h : ad.id = some i) (hne : i ≠ "") :
    (mkManualFeedItem now ts ad u).id = i := by
  simp [mkManualFeedItem, h, hne]

/-- C5: submitting twice with the same (non-blank) id leaves exactly one item
under that id — the one built from the second submission — and every item with
a different id exactly as it was before the two calls. -/
theorem manual_upsert_same_id (feed : Feed) (ad1 ad2 : Ad) (u1 u2 : UserData)
    (now1 now2 : String) (ts1 ts2 : Int) (i : String)
    (h1 : ad1.id = some i) (h2 : ad2.id = some i) (hne : i ≠ "") :
    ((add_manual_ad_to_feed now2 ts2 ad2 u2
        (add_manual_ad_to_feed now1 ts1 ad1 u1 feed).1).1.items.filter
        (fun it => it.id = i) = [mkManualFeedItem now2 ts2 ad2 u2]) ∧
    ((add_manual_ad_to_feed now2 ts2 ad2 u2
        (add_manual_ad_to_feed now1 ts1 ad1 u1 feed).1).1.items.filter
        (fun it => it.id ≠ i) = feed.items.filter (fun it => it.id ≠ i)) := by
  have e1 := mkManualFeedItem_id now1 ts1 ad1 u1 i h1 hne
  have e2 := mkManualFeedItem_id now2 ts2 ad2 u2 i h2 hne
  unfold add_manual_ad_to_feed
  simp only [e1, e2]
  constructor
  · simp only [List.filter_append]
    rw [filter_ne_then_eq, filter_ne_then_eq]
    simp [e2]
  · simp only [List.filter_append]
    simp [filter_self_again, e1, e2]

/-- C5 witness: two concrete submissions under id `manual-1-7`. -/
theorem manual_upsert_same_id_witness :
    ((add_manual_ad_to_feed "n2" 2 adB userA
        (add_manual_ad_to_feed "n1" 1 adA userA feed0).1).1.items.filter
        (fun it => it.id = "manual-1-7") = [mkManualFeedItem "n2" 2 adB userA]) ∧
    ((add_manual_ad_to_feed "n2" 2 adB userA
        (add_manual_ad_to_feed "n1" 1 adA userA feed0).1).1.items.filter
        (fun it => it.id ≠ "manual-1-7") =
      feed0.items.filter (fun it => it.id ≠ "manual-1-7")) :=
  manual_upsert_same_id feed0 adA adB userA userA "n1" "n2" 1 2 "manual-1-7"
    rfl rfl (by decide)

theorem strAppendData (s t : String) : (s ++ t).data = s.data ++ t.data := by
  cases s; cases t; rfl

theorem strDataInj {s t : String} (h : s.data = t.data) : s = t := by
  cases s; cases t; exact congrArg String.mk h

theorem leadsWith_self_append (p r : List Char) : leadsWith p (p ++ r) = true := by
  induction p with
  | nil => rfl
  | cons a ps ih => simp [leadsWith, ih]

theorem hasExcelMark_append (c : String) : hasExcelMark ("excel-" ++ c) = true := by
  unfold hasExcelMark
  rw [strAppendData]
  exact leadsWith_self_append _ _

theorem excelAppendInj : Function.Injective (fun s : String => "excel-" ++ s) := by
  intro a b h
  apply strDataInj
  have h2 : ("excel-" ++ a).data = ("excel-" ++ b).data := congrArg String.data h
  rw [strAppendData, strAppendData] at h2
  exact List.append_cancel_left h2

theorem buildExcelItemsAux_mem (now : String) (cards : List Card) (acc : List FeedItem)
    (item : FeedItem) (h : item ∈ buildExcelItemsAux now cards acc) :
    item ∈ acc ∨ (item.source_type = "excel" ∧ item.author = none) := by
  induction cards generalizing acc with
  | nil => exact Or.inl h
  | cons card rest ih =>
    simp only [buildExcelItemsAux] at h
    split at h
    · exact ih acc h
    · rcases ih _ h with hin | hp
      · rcases List.mem_append.1 hin with h1 | h2
        · exact Or.inl h1
        · right
          rw [List.mem_singleton.1 h2]
          exact ⟨rfl, rfl⟩
      · exact Or.inr hp

theorem buildExcelItemsAux_ids (now : String) (cards : List Card) (acc : List FeedItem)
    (h : ∀ c ∈ cards, pyStrip c.title ≠ "" → pyStrip c.code ≠ "") :
    (buildExcelItemsAux now cards acc).map FeedItem.id =
      acc.map FeedItem.id ++
        (cards.filter (fun c => pyStrip c.title ≠ "")).map
          (fun c => "excel-" ++ pyStrip c.code) := by
  induction cards generalizing acc with
  | nil => simp [buildExcelItemsAux]
  | cons card rest ih =>
    simp only [buildExcelItemsAux]
    by_cases ht : pyStrip card.title = ""
    · rw [if_pos ht, ih acc (fun c hc hc' => h c (List.mem_cons_of_mem _ hc) hc')]
      simp [List.filter_cons, ht]
    · rw [if_neg ht, ih _ (fun c hc hc' => h c (List.mem_cons_of_mem _ hc) hc')]
      have hc := h card (List.mem_cons_self _ _) ht
      simp [List.filter_cons, ht, hc]

/-- C3 counterexample: a card with a blank code takes positional id `excel-1`
while the next card's code is literally `"1"`; the rebuilt feed then carries
the id `excel-1` twice, refuting the no-duplicate-ids conjunct. -/
theorem replace_excel_ads_dup_ids :
    ((replace_excel_ads "t1"
        [{ blankCard with title := "Кран" }, { blankCard with title := "Экскаватор", code := "1" }]
        { updated_at := "t0", items := [] }).1.items.map FeedItem.id) = ["excel-1", "excel-1"] ∧
    ¬ ((replace_excel_ads "t1"
        [{ blankCard with title := "Кран" }, { blankCard with title := "Экскаватор", code := "1" }]
        { updated_at := "t0", items := [] }).1.items.map FeedItem.id).Nodup := by
  decide

/-- C3 (amended): after `replace_excel_ads` the feed is exactly the prior
non-excel items (in order) followed by the freshly built excel items, and the
non-excel count is unchanged; ids are duplicate-free provided the prior
non-excel ids were duplicate-free and outside the `excel-` namespace and the
kept cards carry pairwise distinct non-blank codes. -/
theorem replace_excel_ads_spec (now : String) (cards : List Card) (feed : Feed)
    (hcode : ∀ c ∈ cards, pyStrip c.title ≠ "" → pyStrip c.code ≠ "")
    (hcodesNodup : ((cards.filter (fun c => pyStrip c.title ≠ "")).map
        (fun c => pyStrip c.code)).Nodup)
    (hmanNodup : ((feed.items.filter (fun i => i.source_type ≠ "excel")).map FeedItem.id).Nodup)
    (hmanMark : ∀ i ∈ feed.items.filter (fun i => i.source_type ≠ "excel"),
        hasExcelMark i.id = false) :
    (replace_excel_ads now cards feed).1.items =
      feed.items.filter (fun i => i.source_type ≠ "excel") ++ buildExcelItems now cards ∧
    ((replace_excel_ads now cards feed).1.items.filter
        (fun i => i.source_type ≠ "excel")).length =
      (feed.items.filter (fun i => i.source_type ≠ "excel")).length ∧
    ((replace_excel_ads now cards feed).1.items.map FeedItem.id).Nodup := by
  have hexcelnil :
      (buildExcelItems now cards).filter (fun i => i.source_type ≠ "excel") = [] := by
    rw [List.filter_eq_nil_iff]
    intro a ha
    rcases buildExcelItemsAux_mem now cards [] a ha with hin | ⟨hst, _⟩
    · simp at hin
    · simp [hst]
  refine ⟨rfl, ?_, ?_⟩
  · show ((feed.items.filter (fun i => i.source_type ≠ "excel") ++
        buildExcelItems now cards).filter (fun i => i.source_type ≠ "excel")).length = _
    rw [List.filter_append, filter_self_again, hexcelnil, List.append_nil]
  · show ((feed.items.filter (fun i => i.source_type ≠ "excel") ++
        buildExcelItems now cards).map FeedItem.id).Nodup
    rw [List.map_append, List.nodup_append]
    have hids := buildExcelItemsAux_ids now cards [] hcode
    refine ⟨hmanNodup, ?_, ?_⟩
    · rw [show buildExcelItems now cards = buildExcelItemsAux now cards [] from rfl, hids]
      simp only [List.map_nil, List.nil_append]
      have : (cards.filter (fun c => pyStrip c.title ≠ "")).map
          (fun c => "excel-" ++ pyStrip c.code) =
          ((cards.filter (fun c => pyStrip c.title ≠ "")).map
            (fun c => pyStrip c.code)).map (fun s => "excel-" ++ s) := by
        rw [List.map_map]; rfl
      rw [this]
      exact hcodesNodup.map excelAppendInj
    · intro a ha hb
      have hamark : hasExcelMark a = false := by
        rcases List.mem_map.1 ha with ⟨i, hi, hia⟩
        rw [← hia]
        exact hmanMark i hi
      rw [show buildExcelItems now cards = buildExcelItemsAux now cards [] from rfl, hids] at hb
      simp only [List.map_nil, List.nil_append] at hb
      rcases List.mem_map.1 hb with ⟨c, _, hca⟩
      rw [← hca, hasExcelMark_append] at hamark
      simp at hamark

/-- C3 witness: one manual item plus one coded card satisfy the hypotheses. -/
theorem replace_excel_ads_spec_witness :
    (replace_excel_ads "t1" [card10] feed0).1.items =
      feed0.items.filter (fun i => i.source_type ≠ "excel") ++ buildExcelItems "t1" [card10] ∧
    ((replace_excel_ads "t1" [card10] feed0).1.items.filter
        (fun i => i.source_type ≠ "excel")).length =
      (feed0.items.filter (fun i => i.source_type ≠ "excel")).length ∧
    ((replace_excel_ads "t1" [card10] feed0).1.items.map FeedItem.id).Nodup :=
  replace_excel_ads_spec "t1" [card10] feed0 (by decide) (by decide) (by decide) (by decide)

/-- C9: every item built by the excel import path has no author record, so the
permission gate grants mutation exactly to the admin role — in particular a
leasing_company actor is always denied on excel-origin items. -/
theorem excel_items_admin_only (now : String) (cards : List Card) (item : FeedItem)
    (h : item ∈ buildExcelItems now cards) :
    item.author = none ∧
    ∀ (uid : Int) (role : String),
      ((_can_user_edit_or_delete_ad uid role item).1 = true ↔ role = "admin") := by
  rcases buildExcelItemsAux_mem now cards [] item h with hin | ⟨_, hauthor⟩
  · simp at hin
  · refine ⟨hauthor, fun uid role => ?_⟩
    unfold _can_user_edit_or_delete_ad USER_ROLE_ADMIN USER_ROLE_LEASING_COMPANY
    by_cases hadm : role = "admin"
    · simp [hadm]
    · by_cases hlc : role = "leasing_company"
      · simp [hadm, hlc, hauthor]
      · simp [hadm, hlc]

/-- C9 witness: the item built from `card10` denies a leasing_company actor. -/
theorem excel_items_admin_only_witness :
    excelSampleItem.author = none ∧
    ((_can_user_edit_or_delete_ad 5 "leasing_company" excelSampleItem).1 = true ↔
      ("leasing_company" : String) = "admin") :=
  ⟨(excel_items_admin_only "t1" [card10] excelSampleItem (by decide)).1,
   (excel_items_admin_only "t1" [card10] excelSampleItem (by decide)).2 5 "leasing_company"⟩

theorem buildUpdatesRest_title (u : AdUpdates) : (buildUpdatesRest u).title = none := by
  simp only [buildUpdatesRest]
  repeat' split
  all_goals rfl

theorem buildUpdates_some_title (u : AdUpdates) (upd : Updates)
    (h : buildUpdates u = some upd) :
    upd.title = none ∨ ∃ t, upd.title = some t ∧ t ≠ "" := by
  rcases hu : u.title with _ | tv
  · left
    have hb : buildUpdates u = some (buildUpdatesRest u) := by
      unfold buildUpdates; rw [hu]
    rw [hb] at h
    rw [← Option.some_inj.1 h]
    exact buildUpdatesRest_title u
  · by_cases ht : pyStrip tv = ""
    · have hb : buildUpdates u = none := by
        unfold buildUpdates; rw [hu]; simp [ht]
      rw [hb] at h
      cases h
    · have hb : buildUpdates u =
          some { buildUpdatesRest u with title := some (pyStrip tv) } := by
        unfold buildUpdates; rw [hu]; simp [ht]
      rw [hb] at h
      right
      exact ⟨pyStrip tv, by rw [← Option.some_inj.1 h], ht⟩

theorem findItemAux_mem (ad_id : String) (items : List FeedItem) (k idx : Nat)
    (t : FeedItem) (h : findItemAux ad_id items k = some (idx, t)) : t ∈ items := by
  induction items generalizing k with
  | nil => simp [findItemAux] at h
  | cons a rest ih =>
    simp only [findItemAux] at h
    split at h
    · injection h with hp
      rw [Prod.mk.injEq] at hp
      rw [← hp.2]
      exact List.mem_cons_self _ _
    · exact List.mem_cons_of_mem _ (ih _ h)

theorem update_step_titles (now ad_id : String) (u : AdUpdates) (actor : UserData)
    (role : String) (feed : Feed) (hne : titlesNonEmpty feed) :
    titlesNonEmpty (update_manual_ad_in_feed now ad_id u actor role feed).2.2 := by
  unfold update_manual_ad_in_feed
  cases hfind : _find_feed_item_by_id feed ad_id with
  | none => simpa [titlesNonEmpty] using hne
  | some p =>
    rcases p with ⟨idx, target⟩
    rcases hperm : _can_user_edit_or_delete_ad actor.id role target with ⟨b, r⟩
    cases b
    · simpa [hperm, titlesNonEmpty] using hne
    · cases hbu : buildUpdates u with
      | none => simpa [hperm, hbu, titlesNonEmpty] using hne
      | some upd =>
        by_cases hemp : upd.isEmpty
        · simpa [hperm, hbu, hemp, titlesNonEmpty] using hne
        · simp only [hperm, hbu, hemp, titlesNonEmpty, Bool.false_eq_true, if_false]
          intro i hi
          rcases List.mem_or_eq_of_mem_set hi with hin | heq
          · exact hne i hin
          · subst heq
            rcases buildUpdates_some_title u upd hbu with hnone | ⟨t, ht, htne⟩
            · simp only [applyItemUpdates, hnone, Option.getD_none]
              exact hne target (findItemAux_mem ad_id feed.items 0 idx target hfind)
            · simp only [applyItemUpdates, ht, Option.getD_some]
              exact htne

/-- C10: an update whose payload carries a blank (post-trim) title always
fails and leaves the persisted feed untouched; consequently the
"every title non-blank" feed invariant survives any sequence of manual
updates. -/
theorem update_never_blanks_titles :
    (∀ (now ad_id : String) (u : AdUpdates) (actor : UserData) (role : String)
        (feed : Feed) (tv : String), u.title = some tv → pyStrip tv = "" →
      (update_manual_ad_in_feed now ad_id u actor role feed).1 = none ∧
      (update_manual_ad_in_feed now ad_id u actor role feed).2.2 = feed) ∧
    (∀ (calls : List UpdateCall) (feed : Feed), titlesNonEmpty feed →
      titlesNonEmpty (applyUpdateCalls calls feed)) := by
  constructor
  · intro now ad_id u actor role feed tv htv hblank
    have hbu : buildUpdates u = none := by
      unfold buildUpdates
      rw [htv]
      simp [hblank]
    unfold update_manual_ad_in_feed
    cases hfind : _find_feed_item_by_id feed ad_id with
    | none => simp
    | some p =>
      rcases p with ⟨idx, target⟩
      rcases hperm : _can_user_edit_or_delete_ad actor.id role target with ⟨b, r⟩
      cases b
      · simp [hperm]
      · simp [hperm, hbu]
  · intro calls
    induction calls with
    | nil => exact fun feed h => h
    | cons c rest ih =>
      intro feed h
      have hstep := update_step_titles c.now c.ad_id c.updates c.actor c.role feed h
      simpa [applyUpdateCalls] using
        ih (update_manual_ad_in_feed c.now c.ad_id c.updates c.actor c.role feed).2.2 hstep

/-- C10 witness: a blank-title payload fails on a concrete feed even for an
admin actor, leaving the feed unchanged. -/
theorem update_never_blanks_titles_witness :
    (update_manual_ad_in_feed "t1" "manual-1-7" { title := some " " } userA "admin" feed0).1 = none ∧
    (update_manual_ad_in_feed "t1" "manual-1-7" { title := some " " } userA "admin" feed0).2.2 = feed0 :=
  update_never_blanks_titles.1 "t1" "manual-1-7" { title := some " " } userA "admin" feed0 " "
    rfl (by decide)

/-- C7: a header exactly equal to some normalized primary keyword scores
exactly 100, for every similarity function and regardless of the synonym
lists (the tier-1 check short-circuits). -/
theorem exact_primary_scores_100 (sim : String → String → ℚ) (excel_col : String)
    (kw : KeywordsDict) (h : ∃ k ∈ kw.primary, excel_col = normalize_column_name k) :
    calculate_match_score sim excel_col kw = 100 := by
  rcases h with ⟨k, hk, he⟩
  unfold calculate_match_score
  rw [if_pos]
  exact List.any_eq_true.2 ⟨k, hk, by simp [he]⟩

/-- C7 witness: an exact primary hit at a concrete header, synonyms present
and similarity identically zero. -/
theorem exact_primary_scores_100_witness :
    calculate_match_score simZero "код предложения"
      { primary := ["Код предложения"], synonyms := ["другое"] } = 100 :=
  exact_primary_scores_100 simZero "код предложения"
    { primary := ["Код предложения"], synonyms := ["другое"] }
    ⟨"Код предложения", by decide, by decide⟩

/-- C8 counterexample: the price formatter does NOT return the
"price on request" placeholder on zero — `format_price(0)` is `"0 ₽"`
(the zero→label rule belongs to `format_mileage`, not `format_price`). -/
theorem format_price_zero_not_placeholder :
    format_price (PyVal.vInt 0) = "0 ₽" ∧
    format_price (PyVal.vInt 0) ≠ "Цена по запросу" := by
  decide

/-- C8 (amended): the placeholder is returned for absent values (None/NaN) and
for the blank string; every integer value — zero included — formats as the
integer rendered with space-separated thousands groups plus the currency
suffix (1500000 ↦ "1 500 000 ₽", 0 ↦ "0 ₽"). -/
theorem format_price_spec :
    (format_price PyVal.vNone = "Цена по запросу" ∧
     format_price PyVal.vNaN = "Цена по запросу" ∧
     format_price (PyVal.vStr "") = "Цена по запросу") ∧
    format_price (PyVal.vInt 1500000) = "1 500 000 ₽" ∧
    format_price (PyVal.vInt 0) = "0 ₽" ∧
    (∀ n : Int, format_price (PyVal.vInt n) = thousandsSep n ++ " ₽") := by
  refine ⟨⟨rfl, rfl, rfl⟩, by decide, by decide, fun n => rfl⟩

theorem foldl_max_acc (l : List Nat) (i : Nat) : l.foldl max i = max i (maxOf l) := by
  induction l generalizing i with
  | nil => simp [maxOf]
  | cons a t ih =>
    simp only [maxOf, List.foldl_cons] at *
    rw [ih (max i a), ih (max 0 a)]
    omega

theorem maxOf_cons (a : Nat) (l : List Nat) : maxOf (a :: l) = max a (maxOf l) := by
  have h1 : maxOf (a :: l) = List.foldl max (max 0 a) l := rfl
  rw [h1, foldl_max_acc l (max 0 a)]
  omega

theorem maxOf_mem (l : List Nat) (h : maxOf l ≠ 0) : maxOf l ∈ l := by
  induction l with
  | nil => simp [maxOf] at h
  | cons a t ih =>
    rw [maxOf_cons] at *
    by_cases hat : maxOf t ≤ a
    · rw [Nat.max_eq_left hat]
      exact List.mem_cons_self _ _
    · push_neg at hat
      rw [Nat.max_eq_right (Nat.le_of_lt hat)] at *
      exact List.mem_cons_of_mem _ (ih h)

theorem availableCols_cons_mem (used : List String) (c : String) (cols : List String)
    (h : c ∈ used) : availableCols used (c :: cols) = availableCols used cols := by
  simp [availableCols, List.filter_cons, h]

theorem availableCols_cons_not (used : List String) (c : String) (cols : List String)
    (h : c ∉ used) : availableCols used (c :: cols) = c :: availableCols used cols := by
  simp [availableCols, List.filter_cons, h]

theorem bestLoop_cons_used (sim : String → String → ℚ) (kw : KeywordsDict)
    (used : List String) (c : String) (rest : List String) (acc : Option String × Nat)
    (h : c ∈ used) :
    bestLoop sim kw used (c :: rest) acc = bestLoop sim kw used rest acc := by
  simp [bestLoop, h]

theorem bestLoop_cons_not (sim : String → String → ℚ) (kw : KeywordsDict)
    (used : List String) (c : String) (rest : List String) (acc : Option String × Nat)
    (h : c ∉ used) :
    bestLoop sim kw used (c :: rest) acc =
      if acc.2 < calculate_match_score sim (normalize_column_name c) kw then
        bestLoop sim kw used rest (some c, calculate_match_score sim (normalize_column_name c) kw)
      else bestLoop sim kw used rest acc := by
  simp [bestLoop, h]

theorem bestLoop_spec (sim : String → String → ℚ) (kw : KeywordsDict) (used : List String)
    (cols : List String) :
    ∀ (bm0 : Option String) (s0 : Nat),
      (maxAvailScore sim kw used cols ≤ s0 →
        bestLoop sim kw used cols (bm0, s0) = (bm0, s0)) ∧
      (s0 < maxAvailScore sim kw used cols →
        bestLoop sim kw used cols (bm0, s0) =
          ((availableCols used cols).find?
            (fun c => calculate_match_score sim (normalize_column_name c) kw =
              maxAvailScore sim kw used cols),
           maxAvailScore sim kw used cols)) := by
  induction cols with
  | nil =>
    intro bm0 s0
    refine ⟨fun _ => rfl, fun h => ?_⟩
    simp [maxAvailScore, availableCols, maxOf] at h
  | cons c rest ih =>
    intro bm0 s0
    by_cases hc : c ∈ used
    · have hav := availableCols_cons_mem used c rest hc
      have hM : maxAvailScore sim kw used (c :: rest) = maxAvailScore sim kw used rest := by
        simp [maxAvailScore, hav]
      rw [bestLoop_cons_used sim kw used c rest (bm0, s0) hc, hM, hav]
      exact ih bm0 s0
    · have hav := availableCols_cons_not used c rest hc
      have hM : maxAvailScore sim kw used (c :: rest) =
          max (calculate_match_score sim (normalize_column_name c) kw)
            (maxAvailScore sim kw used rest) := by
        simp [maxAvailScore, hav, maxOf_cons]
      rw [bestLoop_cons_not sim kw used c rest (bm0, s0) hc, hM, hav]
      by_cases hs : s0 < calculate_match_score sim (normalize_column_name c) kw
      · rw [if_pos hs]
        constructor
        · intro h
          exfalso
          have := Nat.le_max_left (calculate_match_score sim (normalize_column_name c) kw)
            (maxAvailScore sim kw used rest)
          omega
        · intro _
          by_cases hrest : maxAvailScore sim kw used rest ≤
              calculate_match_score sim (normalize_column_name c) kw
          · rw [Nat.max_eq_left hrest]
            rw [(ih (some c) (calculate_match_score sim (normalize_column_name c) kw)).1 hrest]
            rw [List.find?_cons_of_pos _ (by simp)]
          · push_neg at hrest
            rw [Nat.max_eq_right (Nat.le_of_lt hrest)]
            rw [(ih (some c) (calculate_match_score sim (normalize_column_name c) kw)).2 hrest]
            rw [List.find?_cons_of_neg _ (by simp; omega)]
      · rw [if_neg hs]
        push_neg at hs
        constructor
        · intro h
          exact (ih bm0 s0).1 (by omega)
        · intro h
          have hrest : s0 < maxAvailScore sim kw used rest := by
            have := Nat.le_max_right (calculate_match_score sim (normalize_column_name c) kw)
              (maxAvailScore sim kw used rest)
            have := Nat.le_max_left (calculate_match_score sim (normalize_column_name c) kw)
              (maxAvailScore sim kw used rest)
            omega
          rw [Nat.max_eq_right (by omega)]
          rw [(ih bm0 s0).2 hrest]
          rw [List.find?_cons_of_neg _ (by simp; omega)]

theorem mapLoop_append (sim : String → String → ℚ) (cols : List String)
    (kws : List (String × KeywordsDict)) (l1 l2 : List String) (st : MapState) :
    mapLoop sim cols kws (l1 ++ l2) st = mapLoop sim cols kws l2 (mapLoop sim cols kws l1 st) := by
  induction l1 generalizing st with
  | nil => rfl
  | cons f rest ih =>
    cases hk : kws.lookup f with
    | none =>
      simp only [List.cons_append, mapLoop, hk]
      exact ih st
    | some fkw =>
      simp only [List.cons_append, mapLoop, hk]
      exact ih _

theorem mapLoop_vals (sim : String → String → ℚ) (cols : List String)
    (kws : List (String × KeywordsDict)) (fields : List String) (st : MapState) :
    ∃ added : List (String × String),
      (mapLoop sim cols kws fields st).mapping = st.mapping ++ added ∧
      ∀ p ∈ added, p.2 ∈ fields := by
  induction fields generalizing st with
  | nil => exact ⟨[], by simp [mapLoop], by simp⟩
  | cons f rest ih =>
    cases hk : kws.lookup f with
    | none =>
      obtain ⟨ad, h1, h2⟩ := ih st
      refine ⟨ad, ?_, fun p hp => List.mem_cons_of_mem _ (h2 p hp)⟩
      simp only [mapLoop, hk]
      exact h1
    | some fkw =>
      obtain ⟨ad, h1, h2⟩ := ih (mapStep sim cols st f fkw)
      have hstep : ∃ stp : List (String × String),
          (mapStep sim cols st f fkw).mapping = st.mapping ++ stp ∧
          ∀ p ∈ stp, p.2 = f := by
        rcases hb : bestLoop sim fkw st.used cols (none, 0) with ⟨bm, bs⟩
        cases bm with
        | none => exact ⟨[], by simp [mapStep, hb], by simp⟩
        | some m =>
          by_cases hcond : m ≠ "" ∧ 40 ≤ bs
          · exact ⟨[(m, f)], by simp [mapStep, hb, hcond], by simp⟩
          · exact ⟨[], by simp [mapStep, hb, hcond], by simp⟩
      obtain ⟨stp, hs1, hs2⟩ := hstep
      refine ⟨stp ++ ad, ?_, ?_⟩
      · simp only [mapLoop, hk]
        rw [h1, hs1, List.append_assoc]
      · intro p hp
        rcases List.mem_append.1 hp with h | h
        · rw [hs2 p h]
          exact List.mem_cons_self _ _
        · exact List.mem_cons_of_mem _ (h2 p h)

/-- C6 counterexample: with the single header `""` and a field whose primary
keyword is `"код"`, the empty header scores 90 (`"" in "код"` holds in
Python), so the best available score is ≥ 40 — yet the field is NOT mapped,
because `if best_match and best_score >= 40` treats the empty-string header
as falsy.  This refutes the claimed iff as stated. -/
theorem auto_map_field_mapped_iff_cex :
    ¬ (("code" ∈ (auto_map_columns simZero [""] ["code"]
          [("code", kwCode)]).mapping.map Prod.snd) ↔
        40 ≤ maxAvailScore simZero kwCode [] [""]) := by
  decide

/-- C6 (amended): a target field (bearing a keyword spec and listed once) is
present in the produced mapping iff the best score over the headers not yet
consumed by earlier fields is ≥ 40 AND the tie-break winner — the first
header attaining that score — is a non-empty string (Python's truthiness
guard on `best_match`). -/
theorem auto_map_field_mapped_iff (sim : String → String → ℚ)
    (cols pre post : List String) (f : String)
    (keywords : List (String × KeywordsDict)) (fkw : KeywordsDict)
    (hpre : f ∉ pre) (hpost : f ∉ post) (hk : keywords.lookup f = some fkw) :
    (f ∈ (auto_map_columns sim cols (pre ++ f :: post) keywords).mapping.map Prod.snd ↔
      (40 ≤ maxAvailScore sim fkw (mapLoop sim cols keywords pre ⟨[], [], []⟩).used cols ∧
       firstBestCol sim fkw (mapLoop sim cols keywords pre ⟨[], [], []⟩).used cols ≠ some "")) := by
  have hfull : (auto_map_columns sim cols (pre ++ f :: post) keywords).mapping =
      (mapLoop sim cols keywords post
        (mapStep sim cols (mapLoop sim cols keywords pre ⟨[], [], []⟩) f fkw)).mapping := by
    simp only [auto_map_columns]
    rw [mapLoop_append]
    simp only [mapLoop, hk]
  obtain ⟨adPre, hp1, hp2⟩ := mapLoop_vals sim cols keywords pre ⟨[], [], []⟩
  obtain ⟨adPost, ho1, ho2⟩ := mapLoop_vals sim cols keywords post
    (mapStep sim cols (mapLoop sim cols keywords pre ⟨[], [], []⟩) f fkw)
  by_cases hM : maxAvailScore sim fkw (mapLoop sim cols keywords pre ⟨[], [], []⟩).used cols = 0
  · have hb : bestLoop sim fkw (mapLoop sim cols keywords pre ⟨[], [], []⟩).used cols
        (none, 0) = (none, 0) :=
      (bestLoop_spec sim fkw _ cols none 0).1 (by omega)
    have hstep : mapStep sim cols (mapLoop sim cols keywords pre ⟨[], [], []⟩) f fkw =
        mapLoop sim cols keywords pre ⟨[], [], []⟩ := by
      simp [mapStep, hb]
    constructor
    · intro hmem
      exfalso
      rw [hfull, ho1, hstep, hp1] at hmem
      simp only [List.map_append] at hmem
      rcases List.mem_append.1 hmem with h | h
      · obtain ⟨a, ha⟩ : ∃ a, (a, f) ∈ adPre := by simpa using h
        exact hpre (hp2 (a, f) ha)
      · rcases List.mem_map.1 h with ⟨p, hp, he⟩
        exact hpost (he ▸ ho2 p hp)
    · rintro ⟨h40, _⟩
      omega
  · have hex : ∃ cM ∈ availableCols (mapLoop sim cols keywords pre ⟨[], [], []⟩).used cols,
        calculate_match_score sim (normalize_column_name cM) fkw =
          maxAvailScore sim fkw (mapLoop sim cols keywords pre ⟨[], [], []⟩).used cols := by
      have hmem := maxOf_mem _ hM
      rcases List.mem_map.1 hmem with ⟨c, hc, he⟩
      exact ⟨c, hc, he⟩
    obtain ⟨h0, hfind⟩ : ∃ h0,
        firstBestCol sim fkw (mapLoop sim cols keywords pre ⟨[], [], []⟩).used cols = some h0 := by
      rcases hex with ⟨cM, hcM, hsc⟩
      cases hf : firstBestCol sim fkw (mapLoop sim cols keywords pre ⟨[], [], []⟩).used cols with
      | some x => exact ⟨x, rfl⟩
      | none =>
        exfalso
        rw [firstBestCol] at hf
        have := List.find?_eq_none.1 hf cM hcM
        simp [hsc] at this
    have hb : bestLoop sim fkw (mapLoop sim cols keywords pre ⟨[], [], []⟩).used cols
        (none, 0) =
        (some h0, maxAvailScore sim fkw (mapLoop sim cols keywords pre ⟨[], [], []⟩).used cols) := by
      have h2 := (bestLoop_spec sim fkw
        (mapLoop sim cols keywords pre ⟨[], [], []⟩).used cols none 0).2 (by omega)
      rw [h2]
      rw [show ((availableCols (mapLoop sim cols keywords pre ⟨[], [], []⟩).used cols).find?
          (fun c => calculate_match_score sim (normalize_column_name c) fkw =
            maxAvailScore sim fkw (mapLoop sim cols keywords pre ⟨[], [], []⟩).used cols)) =
          firstBestCol sim fkw (mapLoop sim cols keywords pre ⟨[], [], []⟩).used cols from rfl,
        hfind]
    by_cases hcond : h0 ≠ "" ∧
        40 ≤ maxAvailScore sim fkw (mapLoop sim cols keywords pre ⟨[], [], []⟩).used cols
    · have hstep : (mapStep sim cols (mapLoop sim cols keywords pre ⟨[], [], []⟩) f fkw).mapping =
          (mapLoop sim cols keywords pre ⟨[], [], []⟩).mapping ++ [(h0, f)] := by
        simp [mapStep, hb, hcond]
      constructor
      · intro _
        refine ⟨hcond.2, ?_⟩
        rw [hfind]
        simp [hcond.1]
      · intro _
        rw [hfull, ho1, hstep]
        simp only [List.map_append]
        apply List.mem_append.2
        left
        apply List.mem_append.2
        right
        simp
    · have hstep : mapStep sim cols (mapLoop sim cols keywords pre ⟨[], [], []⟩) f fkw =
          mapLoop sim cols keywords pre ⟨[], [], []⟩ := by
        simp only [mapStep, hb]
        rw [if_neg hcond]
      constructor
      · intro hmem
        exfalso
        rw [hfull, ho1, hstep, hp1] at hmem
        simp only [List.map_append] at hmem
        rcases List.mem_append.1 hmem with h | h
        · obtain ⟨a, ha⟩ : ∃ a, (a, f) ∈ adPre := by simpa using h
          exact hpre (hp2 (a, f) ha)
        · rcases List.mem_map.1 h with ⟨p, hp, he⟩
          exact hpost (he ▸ ho2 p hp)
      · rintro ⟨h40, hne⟩
        exfalso
        apply hcond
        refine ⟨?_, h40⟩
        intro he
        apply hne
        rw [hfind, he]

/-- C6 witness: the spec's own scenario header `Код предложения` maps the
`code` field with the iff's right-hand side holding. -/
theorem auto_map_field_mapped_iff_witness :
    ("code" ∈ (auto_map_columns simZero ["Код предложения"] ["code"]
        [("code", kwCodeFull)]).mapping.map Prod.snd ↔
      (40 ≤ maxAvailScore simZero kwCodeFull
          (mapLoop simZero ["Код предложения"] [("code", kwCodeFull)] [] ⟨[], [], []⟩).used
          ["Код предложения"] ∧
       firstBestCol simZero kwCodeFull
          (mapLoop simZero ["Код предложения"] [("code", kwCodeFull)] [] ⟨[], [], []⟩).used
          ["Код предложения"] ≠ some "")) :=
  auto_map_field_mapped_iff simZero ["Код предложения"] [] [] "code"
    [("code", kwCodeFull)] kwCodeFull (by decide) (by decide) (by decide)
